import Mathlib

/-!
Verification of the email assistant's memory subsystem and classifier-response
parser against their natural-language specification.

The embedding is shallow: Python strings are modelled as `List Char` (wrapped
in `String` at the interface), the SQLite tables of `memory_manager.py` as
Lean lists inside a `MemoryState` structure, timestamps as natural numbers
(seconds; the calendar-day component is `t / 86400`, and SQLite's textual
ISO ordering coincides with numeric ordering), and Python dictionaries as
insertion-ordered association lists.  Every operation is a pure, executable
function translated from the source.
-/

/-! ### Python string primitives (ASCII model)

`str.strip`, `str.upper`, `str.split('\n')`, `str.startswith`, `str.replace`,
`in` (substring test) and `'\n'.join`, modelled over `List Char`.  The case
mappings are the ASCII ones, which is exact for the ASCII marker strings the
parser uses.
-/

def isPySpace (c : Char) : Bool :=
  c == ' ' || c == '\t' || c == '\n' || c == '\r' || c == '\x0b' || c == '\x0c'

def asciiUpper (c : Char) : Char :=
  if 'a' ≤ c && c ≤ 'z' then Char.ofNat (c.toNat - 32) else c

def asciiLower (c : Char) : Char :=
  if 'A' ≤ c && c ≤ 'Z' then Char.ofNat (c.toNat + 32) else c

def upperList (l : List Char) : List Char := l.map asciiUpper

/-- Python `str.strip()`: drop leading and trailing whitespace. -/
def stripList (l : List Char) : List Char :=
  ((l.dropWhile isPySpace).reverse.dropWhile isPySpace).reverse

/-- Python `str.split('\n')`. -/
def splitNl : List Char → List (List Char)
  | [] => [[]]
  | a :: t =>
    if a = '\n' then [] :: splitNl t
    else
      match splitNl t with
      | [] => [[a]]
      | h :: rs => (a :: h) :: rs

/-- Python `'\n'.join`. -/
def joinNl : List (List Char) → List Char
  | [] => []
  | [x] => x
  | x :: xs => x ++ '\n' :: joinNl xs

/-- Python `sub in s` (contiguous subsequence test), case-sensitive. -/
def containsSeq (s pat : List Char) : Bool :=
  pat.isPrefixOf s ||
    match s with
    | [] => false
    | _ :: s' => containsSeq s' pat

/-- Worker for `removeAll`: while `skip > 0` the scanner is inside an
occurrence being removed; at `skip = 0` a fresh match removes the next
`pat.length` characters. -/
def removeAllAux : List Char → List Char → Nat → List Char
  | [], _, _ => []
  | _ :: t, pat, skip + 1 => removeAllAux t pat skip
  | a :: t, pat, 0 =>
    if pat.isPrefixOf (a :: t) && !pat.isEmpty then
      removeAllAux t pat (pat.length - 1)
    else
      a :: removeAllAux t pat 0

/-- Python `str.replace(pat, "")` with a non-empty pattern: remove every
(left-to-right, non-overlapping) occurrence of `pat`. -/
def removeAll (l pat : List Char) : List Char := removeAllAux l pat 0

/-! ### The classifier-response parser (`email_triage.extract_classification`) -/

def clsMarker : List Char := "CLASSIFICATION:".toList

def rsnMarker : List Char := "REASONING:".toList

/-- `line.upper().startswith("CLASSIFICATION:")`. -/
def isClsMarker (l : List Char) : Bool := clsMarker.isPrefixOf (upperList l)

/-- `line.upper().startswith("REASONING:")`. -/
def isRsnMarker (l : List Char) : Bool := rsnMarker.isPrefixOf (upperList l)

/-- The verdict taken from a matching `CLASSIFICATION:` line:
`line.upper().replace("CLASSIFICATION:", "").strip()` then substring tests
against `IGNORE`, `NOTIFY`, `RESPOND` in that order. -/
def verdictOfLine (l : List Char) : String :=
  let t := stripList (removeAll (upperList l) clsMarker)
  if containsSeq t "IGNORE".toList then "ignore"
  else if containsSeq t "NOTIFY".toList then "notify"
  else if containsSeq t "RESPOND".toList then "respond"
  else "respond"

/-- First loop of `extract_classification`: scan for the first marker line,
default `"respond"`. -/
def clsOfLines : List (List Char) → String
  | [] => "respond"
  | ln :: rest => if isClsMarker ln then verdictOfLine ln else clsOfLines rest

/-- Second loop of `extract_classification`: collect the lines after a
`REASONING:` marker; marker lines themselves are skipped (`continue`). -/
def rsnLinesAux (sec : Bool) : List (List Char) → List (List Char)
  | [] => []
  | ln :: rest =>
    if isRsnMarker ln then rsnLinesAux true rest
    else if sec then ln :: rsnLinesAux sec rest
    else rsnLinesAux sec rest

/-- `email_triage.extract_classification`: the pair `(classification,
reasoning)` parsed from the raw model response. -/
def extract_classification (result_text : String) : String × String :=
  let lines := splitNl (stripList result_text.toList)
  let rl := rsnLinesAux false lines
  (clsOfLines lines,
    if rl.isEmpty then result_text else String.mk (joinNl rl))

/-! ### C1: the parsing contract as literally claimed, and as amended

`c1ClaimSpec` transcribes the claim's words: the classification comes from
the first response line whose upper-cased form starts with `CLASSIFICATION:`
(keyword priority IGNORE, NOTIFY, RESPOND; default `respond`), and the
reasoning is the newline-join of all lines after a line starting with
`REASONING:`, defaulting to the whole raw text only when no marker line
exists.  `c1AmendedSpec` is the same statement with the corrections the code
forces: lines are taken from the whitespace-stripped response, marker lines
are never collected, and the reasoning also defaults to the raw text when a
marker exists but no lines were collected after it.
-/

/-- The suffix of `l` strictly after the first element satisfying `p`
("all lines after a line starting with the marker"), if any. -/
def afterFirst {α : Type} (p : α → Bool) : List α → Option (List α)
  | [] => none
  | a :: t => if p a then some t else afterFirst p t

/-- Claim C1's classification clause, read over the raw response lines. -/
def c1ClaimCls (result_text : String) : String :=
  match (splitNl result_text.toList).find? isClsMarker with
  | none => "respond"
  | some ln =>
    if containsSeq (upperList ln) "IGNORE".toList then "ignore"
    else if containsSeq (upperList ln) "NOTIFY".toList then "notify"
    else if containsSeq (upperList ln) "RESPOND".toList then "respond"
    else "respond"

/-- Claim C1's reasoning clause: all lines after the first `REASONING:`
marker, defaulting to the entire raw text only when no marker exists. -/
def c1ClaimReasoning (result_text : String) : String :=
  match afterFirst isRsnMarker (splitNl result_text.toList) with
  | none => result_text
  | some rest => String.mk (joinNl rest)

/-- Claim C1 as literally stated: the pair the parse is claimed to return. -/
def c1ClaimSpec (result_text : String) : String × String :=
  (c1ClaimCls result_text, c1ClaimReasoning result_text)

/-- Amended classification clause: first marker line of the *stripped*
response decides, by keyword priority on the upper-cased line with the
marker text removed. -/
def c1AmendedCls (result_text : String) : String :=
  match (splitNl (stripList result_text.toList)).find? isClsMarker with
  | none => "respond"
  | some ln => verdictOfLine ln

/-- Amended reasoning clause: the non-marker lines after the first
`REASONING:` marker of the stripped response; the entire raw text when no
marker exists or nothing was collected. -/
def c1AmendedReasoning (result_text : String) : String :=
  let collected :=
    match afterFirst isRsnMarker (splitNl (stripList result_text.toList)) with
    | none => []
    | some rest => rest.filter (fun l => !isRsnMarker l)
  if collected.isEmpty then result_text else String.mk (joinNl collected)

/-- Claim C1 as amended. -/
def c1AmendedSpec (result_text : String) : String × String :=
  (c1AmendedCls result_text, c1AmendedReasoning result_text)

/-! ### Data model (`memory_manager.py`)

Timestamps are seconds (`Nat`); the SQLite `DATE()` of a timestamp is its
day number `t / 86400`, and `ORDER BY timestamp` is numeric order (the
stored ISO strings order identically).  Ties in `ORDER BY` are resolved by
storage order in this model (SQLite leaves them unspecified).  Python
dictionaries are modelled as association lists with insertion-order update
semantics.
-/

def dateOf (t : Nat) : Nat := t / 86400

structure EmailRecord where
  email_id : String
  author : String
  subject : String
  classification : String
  reasoning : String
  thread_summary : String
  timestamp : Nat
  response_sent : Bool := false
  raw_content : String := ""
deriving DecidableEq, Repr

structure UserContextEntry where
  key : String
  value : String
  category : String
  updated_at : Nat
deriving DecidableEq, Repr

structure ConversationPattern where
  pattern_id : Nat
  author_domain : String
  typical_classification : String
  keywords : List String
  frequency : Nat
  last_seen : Nat
deriving DecidableEq, Repr

/-- The three persistent tables of `EmailMemoryManager`, plus the
`AUTOINCREMENT` counter backing `conversation_patterns.pattern_id`. -/
structure MemoryState where
  email_history : List EmailRecord
  user_context : List UserContextEntry
  conversation_patterns : List ConversationPattern
  next_pattern_id : Nat
deriving DecidableEq, Repr

def MemoryState.empty : MemoryState := ⟨[], [], [], 1⟩

/-- Python dict read: `d.get(k)`. -/
def dictGet? {κ α : Type} [BEq κ] (d : List (κ × α)) (k : κ) : Option α :=
  (d.find? (fun p => p.1 == k)).map (·.2)

/-- Python dict write: `d[k] = v` (update the key in place, keeping its
position, else append; model dictionaries always have unique keys). -/
def dictSet {κ α : Type} [BEq κ] : List (κ × α) → κ → α → List (κ × α)
  | [], k, v => [(k, v)]
  | p :: t, k, v => if p.1 == k then (k, v) :: t else p :: dictSet t k v

/-! ### Record-store operations -/

/-- `store_email_decision`: `INSERT OR REPLACE` keyed by `email_id` (the
conflicting row is deleted and the new row inserted), returning success. -/
def store_email_decision (s : MemoryState) (r : EmailRecord) :
    MemoryState × Bool :=
  ({ s with email_history :=
      s.email_history.filter (fun q => !(q.email_id == r.email_id)) ++ [r] },
   true)

/-- `ORDER BY timestamp DESC` as a relation on records. -/
def tsDesc (a b : EmailRecord) : Prop := b.timestamp ≤ a.timestamp

instance : DecidableRel tsDesc := fun _ _ => Nat.decLe _ _

instance : IsTotal EmailRecord tsDesc :=
  ⟨fun a b => Nat.le_total b.timestamp a.timestamp⟩

instance : IsTrans EmailRecord tsDesc :=
  ⟨fun _ _ _ hab hbc => Nat.le_trans hbc hab⟩

/-- `get_author_history`: rows with `author = ?`, newest first, `LIMIT`. -/
def get_author_history (s : MemoryState) (author : String) (limit : Nat) :
    List EmailRecord :=
  (List.insertionSort tsDesc
      (s.email_history.filter (fun r => r.author == author))).take limit

/-- Fuel-indexed worker for `likeMatch`; every recursive call shrinks
`p.length + s.length`, so `p.length + s.length + 1` fuel is exact. -/
def likeMatchF : Nat → List Char → List Char → Bool
  | 0, _, _ => false
  | _ + 1, [], [] => true
  | _ + 1, [], _ :: _ => false
  | fuel + 1, '%' :: ps, s =>
    likeMatchF fuel ps s ||
      match s with
      | [] => false
      | _ :: s' => likeMatchF fuel ('%' :: ps) s'
  | fuel + 1, '_' :: ps, s =>
    match s with
    | [] => false
    | _ :: s' => likeMatchF fuel ps s'
  | fuel + 1, p :: ps, s =>
    match s with
    | [] => false
    | c :: s' => asciiLower p == asciiLower c && likeMatchF fuel ps s'

/-- SQLite `LIKE` pattern matching, ASCII case-insensitive; `%` matches any
sequence, `_` any single character. -/
def likeMatch (p s : List Char) : Bool :=
  likeMatchF (p.length + s.length + 1) p s

/-- `subject LIKE '%' || fragment || '%'`. -/
def likeContains (subject fragment : String) : Bool :=
  likeMatch ('%' :: fragment.toList ++ ['%']) subject.toList

/-- `get_similar_subjects`: rows whose subject `LIKE`-matches
`%fragment%`, newest first, `LIMIT`. -/
def get_similar_subjects (s : MemoryState) (fragment : String) (limit : Nat) :
    List EmailRecord :=
  (List.insertionSort tsDesc
      (s.email_history.filter (fun r => likeContains r.subject fragment))).take
    limit

/-- `mark_response_sent`: `UPDATE email_history SET response_sent = TRUE
WHERE email_id = ?`, returning `rowcount > 0`. -/
def mark_response_sent (s : MemoryState) (email_id : String) :
    MemoryState × Bool :=
  ({ s with email_history :=
      s.email_history.map (fun r =>
        if r.email_id == email_id then { r with response_sent := true } else r) },
   s.email_history.any (fun r => r.email_id == email_id))

/-! ### Context-store operations -/

/-- `update_user_context`: `INSERT OR REPLACE` keyed by `key`. -/
def update_user_context (s : MemoryState) (key value category : String)
    (now : Nat) : MemoryState × Bool :=
  ({ s with user_context :=
      s.user_context.filter (fun e => !(e.key == key)) ++
        [⟨key, value, category, now⟩] },
   true)

/-- `get_user_context`: the value for `key`, or `None`. -/
def get_user_context (s : MemoryState) (key : String) : Option String :=
  (s.user_context.find? (fun e => e.key == key)).map (·.value)

/-! ### Pattern-store operations -/

/-- The `SELECT ... WHERE author_domain = ? AND typical_classification = ?`
lookup (`fetchone`: first matching row). -/
def findPattern (s : MemoryState) (d c : String) : Option ConversationPattern :=
  s.conversation_patterns.find? (fun p =>
    p.author_domain == d && p.typical_classification == c)

/-- The `UPDATE conversation_patterns SET frequency = frequency + 1,
keywords = ?, last_seen = ? WHERE pattern_id = ?` row transformation. -/
def bumpPattern (pid : Nat) (kw : List String) (now : Nat)
    (q : ConversationPattern) : ConversationPattern :=
  if q.pattern_id == pid then
    { q with frequency := q.frequency + 1, keywords := kw, last_seen := now }
  else q

/-- `update_conversation_pattern`: increment the existing row's frequency,
replace its keywords and refresh `last_seen`, or create a fresh row with
frequency 1. -/
def update_conversation_pattern (s : MemoryState) (d c : String)
    (kw : List String) (now : Nat) : MemoryState × Bool :=
  match findPattern s d c with
  | some p =>
    ({ s with conversation_patterns :=
        s.conversation_patterns.map (bumpPattern p.pattern_id kw now) },
     true)
  | none =>
    ({ s with
        conversation_patterns :=
          s.conversation_patterns ++
            [⟨s.next_pattern_id, d, c, kw, 1, now⟩],
        next_pattern_id := s.next_pattern_id + 1 },
     true)

/-! ### Analytics and formatting -/

/-- Counts per distinct classification among `rows`
(`GROUP BY classification`; group order is irrelevant to every lookup). -/
def dailyGroups (rows : List EmailRecord) : List (String × Nat) :=
  ((rows.map (·.classification)).dedup).map
    (fun c => (c, (rows.filter (fun r => r.classification == c)).length))

/-- `get_daily_summary`: start from `{'IGNORE': 0, 'NOTIFY': 0, 'RESPOND': 0,
'total': 0}` and, for every classification group of the records whose date
component equals `date`, set that classification's key and add to `total`. -/
def get_daily_summary (s : MemoryState) (date : Nat) : List (String × Nat) :=
  let rows := s.email_history.filter (fun r => dateOf r.timestamp == date)
  (dailyGroups rows).foldl
    (fun d p =>
      let d1 := dictSet d p.1 p.2
      dictSet d1 "total" ((dictGet? d1 "total").getD 0 + p.2))
    [("IGNORE", 0), ("NOTIFY", 0), ("RESPOND", 0), ("total", 0)]

/-- `GROUP BY DATE(timestamp), classification` over `rows`: for each
distinct day, one triple per distinct classification with its count
(days in descending order, per `ORDER BY day DESC`). -/
def weeklyGroups (rows : List EmailRecord) : List (Nat × String × Nat) :=
  let days := List.insertionSort (fun a b => b ≤ a)
    ((rows.map (fun r => dateOf r.timestamp)).dedup)
  days.flatMap (fun d =>
    let dayRows := rows.filter (fun r => dateOf r.timestamp == d)
    ((dayRows.map (·.classification)).dedup).map
      (fun c => (d, c, (dayRows.filter (fun r => r.classification == c)).length)))

/-- The dictionary-building loop of `get_weekly_stats`: a day gets the
zeroed inner dictionary when first seen, then its classification count is
set. -/
def weeklyFold (gs : List (Nat × String × Nat))
    (st : List (Nat × List (String × Nat))) :
    List (Nat × List (String × Nat)) :=
  gs.foldl
    (fun st g =>
      let inner := (dictGet? st g.1).getD
        [("IGNORE", 0), ("NOTIFY", 0), ("RESPOND", 0)]
      dictSet st g.1 (dictSet inner g.2.1 g.2.2))
    st

/-- `get_weekly_stats`: records whose date is on or after `today - 7`,
organised as a day-keyed dictionary of per-classification counts. -/
def get_weekly_stats (s : MemoryState) (today : Nat) :
    List (Nat × List (String × Nat)) :=
  weeklyFold
    (weeklyGroups
      (s.email_history.filter (fun r => today - 7 ≤ dateOf r.timestamp)))
    []

/-- Proleptic-Gregorian conversion of a day number (days since 1970-01-01)
to `(year, month, day)`; the standard civil-from-days algorithm. -/
def civilFromDays (z : Nat) : Nat × Nat × Nat :=
  let z' := z + 719468
  let era := z' / 146097
  let doe := z' % 146097
  let yoe := (doe - doe / 1460 + doe / 36524 - doe / 146096) / 365
  let doy := doe - (365 * yoe + yoe / 4 - yoe / 100)
  let mp := (5 * doy + 2) / 153
  let d := doy - (153 * mp + 2) / 5 + 1
  let m := if mp < 10 then mp + 3 else mp - 9
  (yoe + era * 400 + (if m ≤ 2 then 1 else 0), m, d)

def padZero (n width : Nat) : String :=
  let s := toString n
  String.mk (List.replicate (width - s.length) '0') ++ s

/-- `timestamp.strftime("%Y-%m-%d")`: the ISO date, day precision. -/
def isoDate (day : Nat) : String :=
  let ymd := civilFromDays day
  padZero ymd.1 4 ++ "-" ++ padZero ymd.2.1 2 ++ "-" ++ padZero ymd.2.2 2

/-- One line of `format_author_history_for_prompt`:
`f"- {date_str}: {record.classification} - {record.thread_summary}"`. -/
def recordLine (r : EmailRecord) : String :=
  "- " ++ isoDate (dateOf r.timestamp) ++ ": " ++ r.classification ++ " - " ++
    r.thread_summary

/-- `format_author_history_for_prompt`: the sentinel on empty history,
otherwise the newline-joined rendered lines, newest first. -/
def format_author_history_for_prompt (s : MemoryState) (author : String)
    (limit : Nat) : String :=
  let history := get_author_history s author limit
  if history.isEmpty then "No previous interactions with this sender."
  else String.intercalate "\n" (history.map recordLine)

/-- Case-sensitive substring test on `String`, for claim C4 as stated. -/
def strContains (s pat : String) : Bool := containsSeq s.toList pat.toList

/-- Claim C4 as literally stated: the records whose subject contains the
fragment as a case-sensitive substring, newest first, capped at `limit`. -/
def c4ClaimSearch (s : MemoryState) (fragment : String) (limit : Nat) :
    List EmailRecord :=
  (List.insertionSort tsDesc
      (s.email_history.filter (fun r => strContains r.subject fragment))).take
    limit

/-! ### Reachability and frame predicates -/

/-- States reachable from a fresh database through the mutating operations
of `EmailMemoryManager`. -/
inductive Reachable : MemoryState → Prop
  | empty : Reachable MemoryState.empty
  | store (s : MemoryState) (r : EmailRecord) :
      Reachable s → Reachable (store_email_decision s r).1
  | mark (s : MemoryState) (email_id : String) :
      Reachable s → Reachable (mark_response_sent s email_id).1
  | set_context (s : MemoryState) (k v cat : String) (now : Nat) :
      Reachable s → Reachable (update_user_context s k v cat now).1
  | observe (s : MemoryState) (d c : String) (kw : List String) (now : Nat) :
      Reachable s → Reachable (update_conversation_pattern s d c kw now).1

/-- At most one live row per `(author_domain, typical_classification)`. -/
def patternsAtMostOne (s : MemoryState) : Prop :=
  s.conversation_patterns.Pairwise (fun p q =>
    ¬(p.author_domain = q.author_domain ∧
      p.typical_classification = q.typical_classification))

/-- Equality of two email records in every field except `response_sent`. -/
def agreeExceptResponseSent (r r' : EmailRecord) : Prop :=
  r.email_id = r'.email_id ∧ r.author = r'.author ∧ r.subject = r'.subject ∧
  r.classification = r'.classification ∧ r.reasoning = r'.reasoning ∧
  r.thread_summary = r'.thread_summary ∧ r.timestamp = r'.timestamp ∧
  r.raw_content = r'.raw_content

/-- `agreeExceptResponseSent` lifted to the partiality of an index lookup. -/
def optionAgree : Option EmailRecord → Option EmailRecord → Prop
  | some r, some r' => agreeExceptResponseSent r r'
  | none, none => True
  | _, _ => False

/-! ### Concrete fixtures for witnesses and counterexamples -/

/-- A record as the classification pipeline builds it: the classification
field is the parser's output on a model response. -/
def c2Record : EmailRecord :=
  ⟨"g1", "bob@corp.com", "Quarterly sync",
   (extract_classification
      "CLASSIFICATION: RESPOND\nREASONING:\nDirect question needs an answer").1,
   (extract_classification
      "CLASSIFICATION: RESPOND\nREASONING:\nDirect question needs an answer").2,
   "", 5 * 86400 + 60, false, "body"⟩

def c2State : MemoryState := ⟨[c2Record], [], [], 1⟩

def c3Record : EmailRecord :=
  ⟨"g2", "ci@corp.com", "Build complete", "ignore", "automated", "",
   3 * 86400 + 40, false, ""⟩

def c3State : MemoryState := ⟨[c3Record], [], [], 1⟩

def c4Record : EmailRecord :=
  ⟨"g3", "ann@acme.com", "Hello World", "respond", "", "greeting",
   7 * 86400 + 10, false, ""⟩

def c4State : MemoryState := ⟨[c4Record], [], [], 1⟩

def c5RecNew : EmailRecord :=
  ⟨"g5a", "ann@acme.com", "s1", "respond", "", "meeting request",
   20281 * 86400 + 300, false, ""⟩

def c5RecMid : EmailRecord :=
  ⟨"g5b", "ann@acme.com", "s2", "notify", "", "build finished",
   20280 * 86400 + 200, false, ""⟩

def c5RecOld : EmailRecord :=
  ⟨"g5c", "ann@acme.com", "s3", "ignore", "", "newsletter",
   20279 * 86400 + 100, false, ""⟩

def c5State : MemoryState := ⟨[c5RecMid, c5RecNew, c5RecOld], [], [], 1⟩

def c7RecOld : EmailRecord :=
  ⟨"dup", "ann@acme.com", "v1", "notify", "r1", "t1", 1000, false, "b1"⟩

def c7RecNew : EmailRecord :=
  ⟨"dup", "ann@acme.com", "v2", "respond", "r2", "t2", 2000, true, "b2"⟩

def c8RecOld : EmailRecord :=
  ⟨"e1", "ann@acme.com", "first", "notify", "", "one", 4000, false, ""⟩

/-- Same author and the same timestamp as `c8RecOld`, different id. -/
def c8RecTie : EmailRecord :=
  ⟨"e2", "ann@acme.com", "second", "respond", "", "two", 4000, false, ""⟩

def c8State : MemoryState := ⟨[c8RecOld], [], [], 1⟩

/-- Strictly newer than everything in `c8State` by the same author. -/
def c8RecNewer : EmailRecord :=
  ⟨"e3", "ann@acme.com", "third", "respond", "", "three", 5000, false, ""⟩

def c9Record : EmailRecord :=
  ⟨"m1", "ann@acme.com", "ping", "respond", "", "", 500, false, ""⟩

def c9State : MemoryState :=
  ⟨[c9Record], [⟨"tone", "formal", "general", 1⟩], [], 1⟩

/-! ## Theorems -/

theorem clsOfLines_eq_find (l : List (List Char)) :
    clsOfLines l =
      match l.find? isClsMarker with
      | none => "respond"
      | some ln => verdictOfLine ln := by
  induction l with
  | nil => rfl
  | cons a t ih =>
    by_cases h : isClsMarker a
    · simp [clsOfLines, List.find?_cons, h]
    · simp [clsOfLines, List.find?_cons, h, ih]

theorem rsnLinesAux_true_eq (l : List (List Char)) :
    rsnLinesAux true l = l.filter (fun x => !isRsnMarker x) := by
  induction l with
  | nil => rfl
  | cons a t ih =>
    by_cases h : isRsnMarker a <;> simp [rsnLinesAux, h, ih]

theorem rsnLinesAux_false_eq (l : List (List Char)) :
    rsnLinesAux false l =
      match afterFirst isRsnMarker l with
      | none => []
      | some rest => rest.filter (fun x => !isRsnMarker x) := by
  induction l with
  | nil => rfl
  | cons a t ih =>
    by_cases h : isRsnMarker a
    · simp [rsnLinesAux, afterFirst, h, rsnLinesAux_true_eq]
    · simp [rsnLinesAux, afterFirst, h, ih]

/-- C1 (amended): for every classifier response string, the parse returns
the pair given by the claim's rules with three corrections forced by the
code: the scanned lines are those of the whitespace-stripped response, the
keyword match is performed on the upper-cased marker line with the marker
text removed, and the reasoning falls back to the entire raw response not
only when no `REASONING:` marker exists but also when no (non-marker) lines
follow one; marker lines themselves are never part of the reasoning. -/
theorem C1_parse_contract (s : String) :
    extract_classification s = c1AmendedSpec s := by
  simp only [extract_classification, c1AmendedSpec, c1AmendedCls,
    c1AmendedReasoning, clsOfLines_eq_find, rsnLinesAux_false_eq]

/-- C1 counterexample: on the response `"CLASSIFICATION: IGNORE\nREASONING:"`
(a marker line with nothing after it) the code returns the entire raw text
as the reasoning, while the claim dictates the empty concatenation of the
zero lines after the marker. -/
theorem C1_claim_counterexample :
    extract_classification "CLASSIFICATION: IGNORE\nREASONING:" ≠
      c1ClaimSpec "CLASSIFICATION: IGNORE\nREASONING:" := by decide

theorem filter_not_then_filter {α : Type} (l : List α) (p : α → Bool) :
    (l.filter (fun a => !p a)).filter p = [] := by
  induction l with
  | nil => rfl
  | cons a t ih => by_cases hp : p a <;> simp [List.filter_cons, hp, ih]

theorem map_id_on {α : Type} {f : α → α} {l : List α}
    (h : ∀ a ∈ l, f a = a) : l.map f = l := by
  induction l with
  | nil => rfl
  | cons a t ih =>
    simp only [List.map_cons, h a (by simp)]
    rw [ih (fun b hb => h b (by simp [hb]))]

/-- C7: storing `r` and then `r'` with the same `email_id` leaves exactly
one row for that id in the email-history table, carrying `r'`'s field
values; and storing the same record twice is idempotent on the state. -/
theorem C7_upsert (s : MemoryState) (r r' : EmailRecord)
    (h : r.email_id = r'.email_id) :
    (store_email_decision (store_email_decision s r).1 r').1.email_history.filter
        (fun q => q.email_id == r'.email_id) = [r'] ∧
      (store_email_decision (store_email_decision s r).1 r).1 =
        (store_email_decision s r).1 := by
  constructor
  · simp only [store_email_decision, List.filter_append,
      filter_not_then_filter]
    simp
  · simp only [store_email_decision, MemoryState.mk.injEq, List.filter_append,
      List.filter_filter]
    simp

/-- C7 witness at concrete records sharing an id. -/
theorem C7_upsert_witness :
    (store_email_decision (store_email_decision MemoryState.empty c7RecOld).1
          c7RecNew).1.email_history.filter
        (fun q => q.email_id == c7RecNew.email_id) = [c7RecNew] ∧
      (store_email_decision (store_email_decision MemoryState.empty
          c7RecOld).1 c7RecOld).1 =
        (store_email_decision MemoryState.empty c7RecOld).1 :=
  C7_upsert MemoryState.empty c7RecOld c7RecNew (by decide)

/-- C9: not-found conditions are not errors: marking an unknown `email_id`
as responded returns `false` and leaves the store unchanged; marking an
existing id returns `true`; and looking up an unknown context key returns
the explicit absent value `none`. -/
theorem C9_not_found (s : MemoryState) (eid key : String) :
    ((∀ q ∈ s.email_history, q.email_id ≠ eid) →
        mark_response_sent s eid = (s, false)) ∧
      ((∃ q ∈ s.email_history, q.email_id = eid) →
        (mark_response_sent s eid).2 = true) ∧
      ((∀ e ∈ s.user_context, e.key ≠ key) →
        get_user_context s key = none) := by
  refine ⟨fun hnone => ?_, fun hsome => ?_, fun hkey => ?_⟩
  · have hmap : s.email_history.map (fun r =>
        if r.email_id == eid then { r with response_sent := true } else r) =
        s.email_history :=
      map_id_on (fun q hq => by simp [hnone q hq])
    have hany : s.email_history.any (fun r => r.email_id == eid) = false := by
      simp only [List.any_eq_false]
      intro q hq
      simp [hnone q hq]
    unfold mark_response_sent
    rw [hmap, hany]
  · obtain ⟨q, hq, hid⟩ := hsome
    simp only [mark_response_sent, List.any_eq_true]
    exact ⟨q, hq, by simp [hid]⟩
  · have : s.user_context.find? (fun e => e.key == key) = none := by
      rw [List.find?_eq_none]
      intro e he
      simp [hkey e he]
    simp [get_user_context, this]

/-- C9 witness: unknown id rejected without change, known id accepted,
unknown context key absent. -/
theorem C9_not_found_witness :
    mark_response_sent c9State "zz" = (c9State, false) ∧
      (mark_response_sent c9State "m1").2 = true ∧
      get_user_context c9State "volume" = none :=
  ⟨(C9_not_found c9State "zz" "volume").1 (by decide),
   (C9_not_found c9State "m1" "volume").2.1 ⟨c9Record, by decide, by decide⟩,
   (C9_not_found c9State "zz" "volume").2.2 (by decide)⟩

/-- C10 (frame property): marking an email as responded never touches the
user-context or pattern tables, keeps the history length and order, changes
at most the `response_sent` field of any row, and leaves every row whose
key differs from the given `email_id` entirely unchanged. -/
theorem C10_mark_frame (s : MemoryState) (eid : String) :
    (mark_response_sent s eid).1.user_context = s.user_context ∧
      (mark_response_sent s eid).1.conversation_patterns =
        s.conversation_patterns ∧
      (mark_response_sent s eid).1.next_pattern_id = s.next_pattern_id ∧
      (mark_response_sent s eid).1.email_history.length =
        s.email_history.length ∧
      (∀ i : Nat, optionAgree s.email_history[i]?
        (mark_response_sent s eid).1.email_history[i]?) ∧
      (∀ i : Nat, ∀ r : EmailRecord, s.email_history[i]? = some r →
        r.email_id ≠ eid →
        (mark_response_sent s eid).1.email_history[i]? = some r) := by
  refine ⟨rfl, rfl, rfl, by simp [mark_response_sent], ?_, ?_⟩
  · intro i
    simp only [mark_response_sent, List.getElem?_map]
    cases hr : s.email_history[i]? with
    | none => exact trivial
    | some r =>
      simp only [Option.map_some', optionAgree, agreeExceptResponseSent]
      split <;> simp
  · intro i r hr hne
    simp [mark_response_sent, List.getElem?_map, hr, hne]

/-- C10 witness: a row with a different id is untouched. -/
theorem C10_mark_frame_witness :
    (mark_response_sent c9State "zz").1.email_history[0]? = some c9Record :=
  (C10_mark_frame c9State "zz").2.2.2.2.2 0 c9Record rfl (by decide)

/-- C4 (amended): the subject search returns exactly the records whose
subject matches the SQLite `LIKE` pattern `%fragment%` — an ASCII
case-insensitive containment test in which `%` and `_` inside the fragment
act as wildcards — ordered by timestamp descending (storage order breaking
ties), capped at `limit`: every returned record matches, the result is
sorted newest first, its length is the match count capped at `limit`, and
whenever the match count is within the cap the result is a permutation of
all matching records. -/
theorem C4_subject_search (s : MemoryState) (fragment : String) (limit : Nat) :
    (∀ r ∈ get_similar_subjects s fragment limit,
        likeContains r.subject fragment = true) ∧
      List.Sorted tsDesc (get_similar_subjects s fragment limit) ∧
      (get_similar_subjects s fragment limit).length =
        min limit
          (s.email_history.filter
            (fun r => likeContains r.subject fragment)).length ∧
      ((s.email_history.filter
            (fun r => likeContains r.subject fragment)).length ≤ limit →
        List.Perm (get_similar_subjects s fragment limit)
          (s.email_history.filter (fun r => likeContains r.subject fragment))) := by
  refine ⟨?_, ?_, ?_, ?_⟩
  · intro r hr
    have h1 : r ∈ List.insertionSort tsDesc
        (s.email_history.filter (fun q => likeContains q.subject fragment)) :=
      List.mem_of_mem_take hr
    rw [List.mem_insertionSort] at h1
    exact (List.mem_filter.1 h1).2
  · exact (List.sorted_insertionSort tsDesc _).sublist (List.take_sublist _ _)
  · rw [get_similar_subjects, List.length_take,
      (List.perm_insertionSort tsDesc _).length_eq]
  · intro hle
    unfold get_similar_subjects
    rw [List.take_of_length_le]
    · exact List.perm_insertionSort tsDesc _
    · rw [(List.perm_insertionSort tsDesc _).length_eq]
      exact hle

/-- C4 witness: the search returns every `LIKE` match of the fragment. -/
theorem C4_subject_search_witness :
    likeContains c4Record.subject "hello" = true ∧
      List.Perm (get_similar_subjects c4State "hello" 3)
        (c4State.email_history.filter
          (fun r => likeContains r.subject "hello")) :=
  ⟨(C4_subject_search c4State "hello" 3).1 c4Record (by decide),
   (C4_subject_search c4State "hello" 3).2.2.2 (by decide)⟩

/-- C4 counterexample: searching for `"hello"` returns the stored record
with subject `"Hello World"`, which does *not* contain `"hello"` as a
case-sensitive substring, while the claimed case-sensitive search returns
nothing — SQLite `LIKE` is ASCII case-insensitive. -/
theorem C4_claim_counterexample :
    get_similar_subjects c4State "hello" 3 = [c4Record] ∧
      strContains c4Record.subject "hello" = false ∧
      c4ClaimSearch c4State "hello" 3 = [] := by decide

theorem insertionSort_append_newest (l : List EmailRecord) (r : EmailRecord)
    (h : ∀ q ∈ l, q.timestamp < r.timestamp) :
    List.insertionSort tsDesc (l ++ [r]) = r :: List.insertionSort tsDesc l := by
  induction l with
  | nil => rfl
  | cons a t ih =>
    have ha := h a (by simp)
    have hih := ih (fun q hq => h q (by simp [hq]))
    simp only [List.cons_append, List.insertionSort, List.append_eq] at hih ⊢
    rw [hih]
    simp only [List.orderedInsert]
    rw [if_neg (show ¬tsDesc a r from fun hc => absurd hc (Nat.not_le.2 ha))]

/-- C8 (amended): storing a record whose timestamp is *strictly* greater
than that of every other stored record by the same author (rows sharing its
`email_id` excepted — the upsert replaces them), then querying that
author's history with limit 1, returns exactly the stored record; with a
merely equal timestamp the earlier-stored record can win the tie. -/
theorem C8_roundtrip (s : MemoryState) (r : EmailRecord)
    (h : ∀ q ∈ s.email_history, q.author = r.author →
      q.timestamp < r.timestamp ∨ q.email_id = r.email_id) :
    get_author_history (store_email_decision s r).1 r.author 1 = [r] := by
  unfold get_author_history store_email_decision
  simp only [List.filter_append]
  have hfr : List.filter (fun q => q.author == r.author) [r] = [r] := by simp
  rw [hfr]
  have hlt : ∀ q ∈ (s.email_history.filter
      (fun q => !(q.email_id == r.email_id))).filter
        (fun q => q.author == r.author), q.timestamp < r.timestamp := by
    intro q hq
    have h1 := List.mem_filter.1 hq
    have h2 := List.mem_filter.1 h1.1
    have hauthor : q.author = r.author := by
      have := h1.2
      simpa using this
    have hid : q.email_id ≠ r.email_id := by
      have := h2.2
      simpa using this
    rcases h q h2.1 hauthor with hlt | heq
    · exact hlt
    · exact absurd heq hid
  rw [insertionSort_append_newest _ r hlt]
  simp

/-- C8 witness: a strictly newest record round-trips through the store. -/
theorem C8_roundtrip_witness :
    get_author_history (store_email_decision c8State c8RecNewer).1
      c8RecNewer.author 1 = [c8RecNewer] :=
  C8_roundtrip c8State c8RecNewer (by decide)

/-- C8 counterexample: `c8RecTie` has a timestamp at least that of every
other stored record by its author (it equals `c8RecOld`'s), yet after
storing it the limit-1 history query returns `c8RecOld`, not `c8RecTie` —
the tie is broken in favour of the earlier-stored row. -/
theorem C8_claim_counterexample :
    (∀ q ∈ c8State.email_history, q.author = c8RecTie.author →
        q.timestamp ≤ c8RecTie.timestamp) ∧
      get_author_history (store_email_decision c8State c8RecTie).1
          c8RecTie.author 1 = [c8RecOld] ∧
      c8RecOld ≠ c8RecTie := by decide

/-- C5 (amended): formatting the history of an author with zero stored
records returns the fixed sentinel string `"No previous interactions with
this sender."` (not the claim's literal `"no prior interactions"`); for an
author with exactly three stored records it returns their three rendered
lines `- <ISO date>: <classification> - <thread_summary>` joined by
newlines, newest first — a deterministic function of the stored records. -/
theorem C5_format_history (s : MemoryState) (author : String)
    (a b c : EmailRecord) :
    (s.email_history.filter (fun q => q.author == author) = [] →
      format_author_history_for_prompt s author 3 =
        "No previous interactions with this sender.") ∧
      (s.email_history.filter (fun q => q.author == author) = [b, a, c] →
        b.timestamp < a.timestamp → c.timestamp ≤ b.timestamp →
        format_author_history_for_prompt s author 3 =
          String.intercalate "\n" [recordLine a, recordLine b, recordLine c]) := by
  constructor
  · intro hempty
    unfold format_author_history_for_prompt get_author_history
    rw [hempty]
    rfl
  · intro hfilter hba hcb
    unfold format_author_history_for_prompt get_author_history
    rw [hfilter]
    have e2 : List.orderedInsert tsDesc a [c] = [a, c] := by
      simp only [List.orderedInsert]
      rw [if_pos (show tsDesc a c from Nat.le_trans hcb (Nat.le_of_lt hba))]
    have e3 : List.orderedInsert tsDesc b [a, c] = [a, b, c] := by
      simp only [List.orderedInsert]
      rw [if_neg (show ¬tsDesc b a from fun hc' =>
            absurd hc' (Nat.not_le.2 hba)),
        if_pos (show tsDesc b c from hcb)]
    have hsort : List.insertionSort tsDesc [b, a, c] = [a, b, c] := by
      simp only [List.insertionSort]
      rw [show List.orderedInsert tsDesc c ([] : List EmailRecord) = [c]
          from rfl, e2, e3]
    rw [hsort]
    rfl

/-- C5 witness: the sentinel for an unknown author, and the three-line
rendering, newest first, for an author with three stored records. -/
theorem C5_format_history_witness :
    format_author_history_for_prompt c5State "nobody@acme.com" 3 =
        "No previous interactions with this sender." ∧
      format_author_history_for_prompt c5State "ann@acme.com" 3 =
        String.intercalate "\n"
          [recordLine c5RecNew, recordLine c5RecMid, recordLine c5RecOld] :=
  ⟨(C5_format_history c5State "nobody@acme.com" c5RecNew c5RecMid
      c5RecOld).1 (by decide),
   (C5_format_history c5State "ann@acme.com" c5RecNew c5RecMid
      c5RecOld).2 (by decide) (by decide) (by decide)⟩

/-- C5 counterexample: the empty-history sentinel the code returns is the
fixed string `"No previous interactions with this sender."`, not the
claim's `"no prior interactions"`. -/
theorem C5_claim_counterexample :
    format_author_history_for_prompt MemoryState.empty "x@y.com" 3 ≠
        "no prior interactions" ∧
      format_author_history_for_prompt MemoryState.empty "x@y.com" 3 =
        "No previous interactions with this sender." := by decide

/-- C2 (code bug): for a record produced by the classification pipeline
(its classification is the parser output `"respond"`, lower-case) stored on
day 5, the daily summary's `total` is correct, but the count lands on the
new key `"respond"` while the initialised known-classification keys
`IGNORE`/`NOTIFY`/`RESPOND` all stay 0 (summing to 0, not N = 1), and the
absent classifications `ignore`/`notify` are missing keys rather than 0 —
the summary initialises upper-case keys while the pipeline stores
lower-case classifications. -/
theorem C2_daily_summary_case_mismatch :
    c2Record.classification = "respond" ∧
      dictGet? (get_daily_summary c2State 5) "total" = some 1 ∧
      dictGet? (get_daily_summary c2State 5) "respond" = some 1 ∧
      dictGet? (get_daily_summary c2State 5) "RESPOND" = some 0 ∧
      dictGet? (get_daily_summary c2State 5) "IGNORE" = some 0 ∧
      dictGet? (get_daily_summary c2State 5) "NOTIFY" = some 0 ∧
      dictGet? (get_daily_summary c2State 5) "ignore" = none := by decide

theorem dictGet?_cons {κ α : Type} [BEq κ] (x : κ × α) (rest : List (κ × α))
    (k' : κ) :
    dictGet? (x :: rest) k' =
      if x.1 == k' then some x.2 else dictGet? rest k' := by
  simp only [dictGet?, List.find?_cons]
  by_cases h : x.1 == k' <;> simp [h]

theorem dictGet?_dictSet {κ α : Type} [BEq κ] [LawfulBEq κ]
    (d : List (κ × α)) (k k' : κ) (v : α) :
    dictGet? (dictSet d k v) k' = if k' == k then some v else dictGet? d k' := by
  induction d with
  | nil =>
    simp only [dictSet]
    rw [dictGet?_cons]
    by_cases h : k' = k
    · subst h; simp
    · simp [h, Ne.symm h, dictGet?]
  | cons p t ih =>
    simp only [dictSet]
    by_cases h1 : p.1 == k
    · rw [if_pos h1, dictGet?_cons, dictGet?_cons]
      by_cases h : k' = k
      · subst h; simp
      · have hpk' : (p.1 == k') = false := by
          have e : p.1 = k := by simpa using h1
          simp [e, Ne.symm h]
        simp [h, Ne.symm h, hpk']
    · rw [if_neg h1, dictGet?_cons, dictGet?_cons, ih]
      by_cases hp : p.1 == k'
      · have hk : (k' == k) = false := by
          have e : p.1 = k' := by simpa using hp
          have hne : p.1 ≠ k := by simpa using h1
          rw [e] at hne
          simp [hne]
        simp [hp, hk]
      · simp [hp]

theorem weeklyFold_get_of_not_mem (gs : List (Nat × String × Nat))
    (st : List (Nat × List (String × Nat))) (d : Nat)
    (h : ∀ g ∈ gs, g.1 ≠ d) :
    dictGet? (weeklyFold gs st) d = dictGet? st d := by
  induction gs generalizing st with
  | nil => rfl
  | cons g t ih =>
    show dictGet? (weeklyFold t _) d = _
    rw [ih _ (fun g' hg' => h g' (by simp [hg']))]
    rw [dictGet?_dictSet]
    have : ¬(d == g.1) := by simp [Ne.symm (h g (by simp))]
    simp [this]

theorem weeklyFold_isSome_mono (gs : List (Nat × String × Nat))
    (st : List (Nat × List (String × Nat))) (d : Nat)
    (h : (dictGet? st d).isSome) :
    (dictGet? (weeklyFold gs st) d).isSome := by
  induction gs generalizing st with
  | nil => exact h
  | cons g t ih =>
    show (dictGet? (weeklyFold t _) d).isSome
    apply ih
    rw [dictGet?_dictSet]
    by_cases hd : d == g.1 <;> simp [hd, h]

theorem weeklyFold_isSome_of_mem (gs : List (Nat × String × Nat))
    (st : List (Nat × List (String × Nat))) (d : Nat)
    (h : d ∈ gs.map (fun g => g.1)) :
    (dictGet? (weeklyFold gs st) d).isSome := by
  induction gs generalizing st with
  | nil => simp at h
  | cons g t ih =>
    show (dictGet? (weeklyFold t _) d).isSome
    by_cases hd : d = g.1
    · apply weeklyFold_isSome_mono
      rw [dictGet?_dictSet]
      simp [hd]
    · apply ih
      simp only [List.map_cons, List.mem_cons] at h
      exact h.resolve_left hd

theorem weeklyGroups_keys_sub (rows : List EmailRecord) :
    ∀ g ∈ weeklyGroups rows, ∃ r ∈ rows, dateOf r.timestamp = g.1 := by
  intro g hg
  unfold weeklyGroups at hg
  rw [List.mem_flatMap] at hg
  obtain ⟨d', hd', hgf⟩ := hg
  rw [List.mem_insertionSort, List.mem_dedup, List.mem_map] at hd'
  obtain ⟨r, hr, hrd⟩ := hd'
  rw [List.mem_map] at hgf
  obtain ⟨c, hc, rfl⟩ := hgf
  exact ⟨r, hr, hrd⟩

theorem weeklyGroups_keys_mem (rows : List EmailRecord) (r : EmailRecord)
    (hr : r ∈ rows) :
    dateOf r.timestamp ∈ (weeklyGroups rows).map (fun g => g.1) := by
  unfold weeklyGroups
  rw [List.mem_map]
  refine ⟨(dateOf r.timestamp, r.classification,
    (((rows.filter (fun q => dateOf q.timestamp == dateOf r.timestamp))).filter
      (fun q => q.classification == r.classification)).length), ?_, rfl⟩
  rw [List.mem_flatMap]
  refine ⟨dateOf r.timestamp, ?_, ?_⟩
  · rw [List.mem_insertionSort, List.mem_dedup, List.mem_map]
    exact ⟨r, hr, rfl⟩
  · rw [List.mem_map]
    refine ⟨r.classification, ?_, rfl⟩
    rw [List.mem_dedup, List.mem_map]
    refine ⟨r, ?_, rfl⟩
    rw [List.mem_filter]
    exact ⟨hr, by simp⟩

/-- C3 (amended): the weekly breakdown contains exactly the days carrying
at least one record whose date is on or after `today - 7` (an eight-day
window, with future-dated records included): a day with no such record —
in particular any day of the week with no activity — is an *absent* key,
not a zero-count entry, and every day with such a record is present. -/
theorem C3_weekly_breakdown (s : MemoryState) (today d : Nat) :
    ((∀ r ∈ s.email_history, today - 7 ≤ dateOf r.timestamp →
        dateOf r.timestamp ≠ d) →
      dictGet? (get_weekly_stats s today) d = none) ∧
      ((∃ r ∈ s.email_history, today - 7 ≤ dateOf r.timestamp ∧
          dateOf r.timestamp = d) →
        (dictGet? (get_weekly_stats s today) d).isSome) := by
  constructor
  · intro h
    unfold get_weekly_stats
    rw [weeklyFold_get_of_not_mem]
    · rfl
    · intro g hg
      obtain ⟨r, hr, hrd⟩ := weeklyGroups_keys_sub _ g hg
      rw [List.mem_filter] at hr
      have hne := h r hr.1 (by simpa using hr.2)
      rw [← hrd]
      exact hne
  · rintro ⟨r, hr, hwin, hday⟩
    unfold get_weekly_stats
    apply weeklyFold_isSome_of_mem
    rw [← hday]
    apply weeklyGroups_keys_mem
    rw [List.mem_filter]
    exact ⟨hr, by simpa using hwin⟩

/-- C3 witness: day 9 (inside the week, no records) is absent; day 3 (has
a record) is present. -/
theorem C3_weekly_breakdown_witness :
    dictGet? (get_weekly_stats c3State 10) 9 = none ∧
      (dictGet? (get_weekly_stats c3State 10) 3).isSome :=
  ⟨(C3_weekly_breakdown c3State 10 9).1 (by decide),
   (C3_weekly_breakdown c3State 10 3).2 ⟨c3Record, by decide, by decide⟩⟩

/-- C3 counterexample: with one record on day 3 and reference day 10, the
reference day itself (no stored records) is *absent* from the result — the
claim requires it present with zero counts — while day 3 (which is
`today - 7`, outside the last seven calendar days) is present. -/
theorem C3_claim_counterexample :
    dictGet? (get_weekly_stats c3State 10) 10 = none ∧
      dictGet? (get_weekly_stats c3State 10) 3 =
        some [("IGNORE", 0), ("NOTIFY", 0), ("RESPOND", 0), ("ignore", 1)] := by
  decide

theorem bumpPattern_domain (pid : Nat) (kw : List String) (now : Nat)
    (q : ConversationPattern) :
    (bumpPattern pid kw now q).author_domain = q.author_domain := by
  unfold bumpPattern
  split <;> rfl

theorem bumpPattern_cls (pid : Nat) (kw : List String) (now : Nat)
    (q : ConversationPattern) :
    (bumpPattern pid kw now q).typical_classification =
      q.typical_classification := by
  unfold bumpPattern
  split <;> rfl

theorem find?_map_pred {α : Type} (f : α → α) (pred : α → Bool)
    (hpred : ∀ a, pred (f a) = pred a) (l : List α) (p : α)
    (h : l.find? pred = some p) : (l.map f).find? pred = some (f p) := by
  induction l with
  | nil => simp at h
  | cons a t ih =>
    by_cases ha : pred a
    · rw [List.find?_cons_of_pos _ ha] at h
      have : a = p := by simpa using h
      subst this
      rw [List.map_cons, List.find?_cons_of_pos _ (by rw [hpred]; exact ha)]
    · rw [List.find?_cons_of_neg _ (by simp [ha])] at h
      rw [List.map_cons,
        List.find?_cons_of_neg _ (by rw [hpred]; simp [ha])]
      exact ih h

/-- Observing an existing `(domain, classification)` pair increments its
frequency by exactly 1, replaces its keywords and sets `last_seen`. -/
theorem observe_found (s : MemoryState) (d c : String) (kw : List String)
    (now : Nat) (p : ConversationPattern)
    (hp : findPattern s d c = some p) :
    findPattern (update_conversation_pattern s d c kw now).1 d c =
      some { p with frequency := p.frequency + 1, keywords := kw,
                    last_seen := now } := by
  have hp' : s.conversation_patterns.find?
      (fun q => q.author_domain == d && q.typical_classification == c) =
      some p := hp
  have hm := find?_map_pred (bumpPattern p.pattern_id kw now)
    (fun q => q.author_domain == d && q.typical_classification == c)
    (fun a => by simp only [bumpPattern_domain, bumpPattern_cls])
    s.conversation_patterns p hp'
  unfold update_conversation_pattern
  simp only [hp]
  show (s.conversation_patterns.map (bumpPattern p.pattern_id kw now)).find?
      (fun q => q.author_domain == d && q.typical_classification == c) = _
  rw [hm]
  unfold bumpPattern
  rw [if_pos (by simp)]

/-- Observing an absent `(domain, classification)` pair creates it with
frequency 1 and the observed keywords and time. -/
theorem observe_absent (s : MemoryState) (d c : String) (kw : List String)
    (now : Nat) (h : findPattern s d c = none) :
    findPattern (update_conversation_pattern s d c kw now).1 d c =
      some ⟨s.next_pattern_id, d, c, kw, 1, now⟩ := by
  have h' : s.conversation_patterns.find?
      (fun q => q.author_domain == d && q.typical_classification == c) =
      none := h
  unfold update_conversation_pattern
  simp only [h]
  show (s.conversation_patterns ++
      [(⟨s.next_pattern_id, d, c, kw, 1, now⟩ : ConversationPattern)]).find?
      (fun q => q.author_domain == d && q.typical_classification == c) = _
  rw [List.find?_append, h']
  simp

theorem observe_preserves_atMostOne (s : MemoryState) (d c : String)
    (kw : List String) (now : Nat) (h : patternsAtMostOne s) :
    patternsAtMostOne (update_conversation_pattern s d c kw now).1 := by
  unfold update_conversation_pattern
  cases hf : findPattern s d c with
  | some p =>
    show List.Pairwise _ (s.conversation_patterns.map _)
    rw [List.pairwise_map]
    refine h.imp ?_
    intro a b hab hcontra
    refine hab ⟨?_, ?_⟩
    · have := hcontra.1
      rwa [bumpPattern_domain, bumpPattern_domain] at this
    · have := hcontra.2
      rwa [bumpPattern_cls, bumpPattern_cls] at this
  | none =>
    show List.Pairwise _ (s.conversation_patterns ++ [_])
    rw [List.pairwise_append]
    refine ⟨h, List.pairwise_singleton _ _, ?_⟩
    intro a ha b hb
    rw [List.mem_singleton] at hb
    subst hb
    intro hcontra
    unfold findPattern at hf
    have := List.find?_eq_none.1 hf a ha
    simp [hcontra.1, hcontra.2] at this

theorem reachable_patternsAtMostOne (s : MemoryState) (h : Reachable s) :
    patternsAtMostOne s := by
  induction h with
  | empty => exact List.Pairwise.nil
  | store s r _ ih => exact ih
  | mark s eid _ ih => exact ih
  | set_context s k v cat now _ ih => exact ih
  | observe s d c kw now _ ih => exact observe_preserves_atMostOne s d c kw now ih

/-- C6: every reachable state has at most one live pattern row per
`(author_domain, typical_classification)` pair; observing a present pair
increments its frequency by exactly 1, replaces the keywords with the
latest observed sequence and sets `last_seen` to the observation time (so
it never regresses under a monotone clock); observing an absent pair
creates it with frequency 1; and two observations of the same fresh pair
yield frequency 2 with the second call's keywords and time. -/
theorem C6_pattern_observe (s : MemoryState) (d c : String)
    (kw1 kw2 : List String) (t1 t2 : Nat) (hs : Reachable s) :
    patternsAtMostOne s ∧
      (∀ p, findPattern s d c = some p →
        findPattern (update_conversation_pattern s d c kw1 t1).1 d c =
          some { p with frequency := p.frequency + 1, keywords := kw1,
                        last_seen := t1 }) ∧
      (findPattern s d c = none →
        findPattern (update_conversation_pattern s d c kw1 t1).1 d c =
          some ⟨s.next_pattern_id, d, c, kw1, 1, t1⟩) ∧
      (findPattern s d c = none →
        findPattern (update_conversation_pattern
            (update_conversation_pattern s d c kw1 t1).1 d c kw2 t2).1 d c =
          some ⟨s.next_pattern_id, d, c, kw2, 2, t2⟩) ∧
      (∀ p q, findPattern s d c = some p → p.last_seen ≤ t1 →
        findPattern (update_conversation_pattern s d c kw1 t1).1 d c = some q →
        p.last_seen ≤ q.last_seen) := by
  refine ⟨reachable_patternsAtMostOne s hs,
    fun p hp => observe_found s d c kw1 t1 p hp,
    fun h => observe_absent s d c kw1 t1 h, fun h => ?_, ?_⟩
  · have h1 := observe_absent s d c kw1 t1 h
    have h2 := observe_found _ d c kw2 t2 _ h1
    rw [h2]
  · intro p q hp hle hq
    rw [observe_found s d c kw1 t1 p hp] at hq
    have : q.last_seen = t1 := by
      cases hq
      rfl
    rw [this]
    exact hle

/-- C6 witness: from the empty store, two observations of the same pair
leave one row with frequency 2, the second call's keywords, and the second
call's time. -/
theorem C6_pattern_observe_witness :
    patternsAtMostOne MemoryState.empty ∧
      findPattern (update_conversation_pattern
          (update_conversation_pattern MemoryState.empty "acme.com" "notify"
            ["ci"] 100).1 "acme.com" "notify" ["build", "ok"] 200).1
        "acme.com" "notify" =
        some ⟨1, "acme.com", "notify", ["build", "ok"], 2, 200⟩ :=
  ⟨(C6_pattern_observe MemoryState.empty "acme.com" "notify" ["ci"]
      ["build", "ok"] 100 200 Reachable.empty).1,
   (C6_pattern_observe MemoryState.empty "acme.com" "notify" ["ci"]
      ["build", "ok"] 100 200 Reachable.empty).2.2.2.1 rfl⟩
